import Mathlib

/-
  Verification of the PAWS local telemetry store (paws-frontend/local-db-server.js).

  The JavaScript core is shallowly embedded: JSON/JS values become the
  inductive type JVal (JS numbers are modelled as rationals; NaN/Infinity,
  which cannot appear in the stored JSON documents, are not modelled),
  ISO-8601 timestamp strings are modelled by their millisecond value
  (constructor TsField.stamp) together with explicit cases for a missing
  field, an empty string and an unparseable string, and the asynchronous
  file-system side effects become explicit state passing.
-/

namespace Paws

/-- HttpError(status, message) from local-db-server.js. -/
structure HErr where
  status : Nat
  msg : String
deriving DecidableEq

/-- A JS value as it can occur in a stored document or a snapshot field.
    Numbers carry a rational (JS float values in this code base are exact
    decimals); object fields are an association list in insertion order,
    mirroring JS object key order. -/
inductive JVal where
  | undefv
  | nullv
  | boolv (b : Bool)
  | num (q : ℚ)
  | str (s : String)
  | arr (xs : List JVal)
  | obj (fields : List (String × JVal))

/-- typeof v === "undefined". -/
def JVal.isUndefv : JVal → Bool
  | .undefv => true
  | _ => false

/-- JS truthiness (Boolean(v)); NaN is not modelled. -/
def jsTruthy : JVal → Bool
  | .undefv => false
  | .nullv => false
  | .boolv b => b
  | .num q => decide (q ≠ 0)
  | .str s => decide (s ≠ "")
  | .arr _ => true
  | .obj _ => true

/-- The nullish-coalescing operator a ?? b. -/
def jsCoalesce (a b : JVal) : JVal :=
  match a with
  | .undefv => b
  | .nullv => b
  | v => v

/-- Spreading an array into an object literal yields index-keyed fields:
    spreading [x, y] gives fields "0" and "1". -/
def arrToFields (xs : List JVal) : List (String × JVal) :=
  xs.enum.map fun p => (toString p.1, p.2)

/-- The fields contributed by spreading a value into an object literal
    (spreading an object gives its fields, an array its indexed elements,
    a string its indexed characters, and any other primitive nothing). -/
def fieldsOf : JVal → List (String × JVal)
  | .obj fs => fs
  | .arr xs => arrToFields xs
  | .str s => s.data.enum.map fun p => (toString p.1, .str (String.singleton p.2))
  | _ => []

/-- { ...a, ...b }: keys of a keep their position (b's value winning when
    the key is present in b), keys only in b are appended in b's order. -/
def spreadUnion (a b : List (String × JVal)) : List (String × JVal) :=
  (a.map fun kv => (kv.1, (b.lookup kv.1).getD kv.2)) ++
    b.filter fun kv => (a.lookup kv.1).isNone

/-- pruneUndefined from local-db-server.js: arrays, null and non-objects
    are returned unchanged; an object drops its undefined-valued
    top-level fields. -/
def pruneUndefined : JVal → JVal
  | .obj fs => .obj (fs.filter fun kv => !kv.2.isUndefv)
  | v => v

/-- What the read step inside mergeJsonFile can observe on disk:
    a missing file (ENOENT), a zero-length file, or parsed JSON.
    (A file holding malformed JSON makes mergeJsonFile throw; the merge
    result is only defined on these three cases.) -/
inductive DiskRead where
  | notFound
  | emptyFile
  | json (v : JVal)

/-- mergeJsonFile's `current`: ENOENT and a zero-length file both leave
    the initial `{}`. -/
def currentOfDisk : DiskRead → JVal
  | .notFound => .obj []
  | .emptyFile => .obj []
  | .json v => v

/-- The value written (and returned) by mergeJsonFile(name, mutation).
    The JS guard is `typeof current === "object" && current !== null`,
    which holds for objects AND for arrays, and fails for null and the
    primitives; in the failing case `next = updates` outright. -/
def mergeJsonFile (disk : DiskRead) (mutation : JVal) : JVal :=
  let current := currentOfDisk disk
  let updates := pruneUndefined mutation
  match current with
  | .obj fs => pruneUndefined (.obj (spreadUnion fs (fieldsOf updates)))
  | .arr xs => pruneUndefined (.obj (spreadUnion (arrToFields xs) (fieldsOf updates)))
  | _ => updates

/-- Field access on a document (undefined/none when absent or not an object). -/
def getF : JVal → String → Option JVal
  | .obj fs, k => fs.lookup k
  | _, _ => none

/-! ### Per-key FIFO serialization (queueFileOp)

queueFileOp chains every operation on a resolved key behind the previous
promise for that key, so the queued task bodies on one key run one at a
time in arrival order, while distinct keys are independent.  The model is
a state machine: each key holds a FIFO queue of atomic tasks (the task
closures handed to queueFileOp, each a function of the file content) and
a store value; a scheduler step picks any key and runs its head task. -/

/-- Run a list of queued tasks in FIFO order over a value. -/
def applyTasks {V : Type} (tasks : List (V → V)) (v : V) : V :=
  tasks.foldl (fun acc f => f acc) v

/-- The scheduler state: pending task queues per key, and the store. -/
structure QState (K V : Type) where
  queues : K → List (V → V)
  store : K → V

/-- One scheduler step: run the head task queued at key k (a no-op if the
    queue at k is empty). -/
def runTask {K V : Type} [DecidableEq K] (s : QState K V) (k : K) : QState K V :=
  match s.queues k with
  | [] => s
  | f :: rest =>
      { queues := Function.update s.queues k rest
        store := Function.update s.store k (f (s.store k)) }

/-- Run an arbitrary interleaving: at each step the schedule names the key
    whose head task runs next. -/
def runSched {K V : Type} [DecidableEq K] (s : QState K V) (sched : List K) : QState K V :=
  sched.foldl runTask s

/-- The counter field of a document, read as mergeJsonFile's caller does
    (0 when absent or not a number). -/
def getCounter (v : JVal) : ℚ :=
  match getF v "counter" with
  | some (.num q) => q
  | _ => 0

/-- One queued merge(name, {counter: counter+1}) operation: the whole
    read-modify-write body runs atomically under the per-key lock. -/
def incCounterTask (v : JVal) : JVal :=
  mergeJsonFile (.json v) (.obj [("counter", .num (getCounter v + 1))])

/-! ### Path resolution (resolveFilePath)

JS string primitives are modelled at character level (structural
recursion over the string's character list) so that they are
executable; Node's POSIX path.resolve / path.relative are modelled on
lists of path segments, with the data directory given as its (already
canonical) absolute segment list. -/

/-- JS String.prototype.startsWith. -/
def jsStartsWith (s pre : String) : Bool := pre.data.isPrefixOf s.data

/-- JS String.prototype.endsWith. -/
def jsEndsWith (s suf : String) : Bool := suf.data.isSuffixOf s.data

/-- JS String.prototype.trim (whitespace at both ends removed). -/
def jsTrim (s : String) : String :=
  ⟨((s.data.dropWhile Char.isWhitespace).reverse.dropWhile Char.isWhitespace).reverse⟩

/-- rawName.replace(/\\/g, "/"). -/
def backslashToSlash (s : String) : String :=
  ⟨s.data.map fun c => if c = '\\' then '/' else c⟩

/-- Does the character list contain ".." as a contiguous substring? -/
def hasDotDotChars : List Char → Bool
  | '.' :: '.' :: _ => true
  | _ :: rest => hasDotDotChars rest
  | [] => false

/-- JS s.includes(".."). -/
def hasDotDot (s : String) : Bool := hasDotDotChars s.data

/-- Splitting on '/' (JS s.split("/"), keeping empty segments). -/
def splitSlashAux : List Char → List Char → List String
  | [], acc => [⟨acc.reverse⟩]
  | '/' :: rest, acc => ⟨acc.reverse⟩ :: splitSlashAux rest []
  | c :: rest, acc => splitSlashAux rest (c :: acc)

/-- JS s.split("/"). -/
def splitSlash (s : String) : List String := splitSlashAux s.data []

/-- One step of POSIX path normalization over segments: empty and "."
    segments are dropped, ".." pops the previous segment (a pop at the
    root of an absolute path is a no-op). -/
def normStep (acc : List String) (seg : String) : List String :=
  if seg = "" || seg = "." then acc
  else if seg = ".." then acc.dropLast
  else acc ++ [seg]

/-- Normalize an absolute path given as raw segments. -/
def normSegs (segs : List String) : List String := segs.foldl normStep []

/-- Node path.resolve(db, p) on POSIX, with db an absolute canonical
    segment list: an absolute p wins outright, otherwise p is appended. -/
def resolvePath (db : List String) (p : String) : List String :=
  if jsStartsWith p "/" then normSegs (splitSlash p)
  else normSegs (db ++ splitSlash p)

/-- Strip the longest common segment prefix of two paths. -/
def splitCommon : List String → List String → List String × List String
  | a :: as, b :: bs => if a = b then splitCommon as bs else (a :: as, b :: bs)
  | as, bs => (as, bs)

/-- Join segments with '/'. -/
def joinSlash : List String → String
  | [] => ""
  | [s] => s
  | s :: rest => s ++ "/" ++ joinSlash rest

/-- Node path.relative(f, t) on POSIX for two absolute canonical paths:
    ".." for every remaining segment of f, then the remaining segments
    of t. -/
def relativeOf (f t : List String) : String :=
  let p := splitCommon f t
  joinSlash (p.1.map (fun _ => "..") ++ p.2)

/-- resolveFilePath(rawName) from local-db-server.js, with the data
    directory dbFolder passed as its canonical absolute segment list.
    Every file operation (readJsonFile, writeJsonFile, mergeJsonFile,
    delete) calls this first, before queueFileOp and before any
    filesystem access, so an error here means no filesystem access
    happens. -/
def resolveFilePath (db : List String) (rawName : String) : Except HErr (List String) :=
  let trimmed := jsTrim rawName
  if trimmed = "" then .error ⟨400, "File name is required"⟩
  else if jsStartsWith trimmed "/" then .error ⟨400, "Invalid file path"⟩
  else
    let sanitised := backslashToSlash trimmed
    if hasDotDot sanitised then .error ⟨400, "Invalid file path"⟩
    else
      let normalized := if jsEndsWith sanitised ".json" then sanitised else sanitised ++ ".json"
      let filePath := resolvePath db normalized
      let rel := relativeOf db filePath
      if jsStartsWith rel ".." || jsStartsWith rel "/" then .error ⟨400, "Invalid file path"⟩
      else .ok filePath

/-- A canonical path segment: nonempty and neither "." nor "..". -/
def validSeg (s : String) : Prop := s ≠ "" ∧ s ≠ "." ∧ s ≠ ".."

/-- All segments canonical. -/
def validSegs (l : List String) : Prop := ∀ s ∈ l, validSeg s

instance (s : String) : Decidable (validSeg s) :=
  inferInstanceAs (Decidable (_ ∧ _ ∧ _))

instance (l : List String) : Decidable (validSegs l) :=
  inferInstanceAs (Decidable (∀ s ∈ l, validSeg s))

/-- Following the spec's words only (for comparison with the code's
    check): a name contains a path-traversal segment when some
    '/'-separated segment is exactly "..". -/
def hasTraversalSegment (s : String) : Bool := (splitSlash s).contains ".."

/-- A concrete data directory (/home/paws/database) used for closed
    instances. -/
def pawsDb : List String := ["home", "paws", "database"]

/-! ### Timestamp fields

An ISO timestamp string as stored in a document: present and parseable
(stamp, carrying its millisecond value), present but empty, present but
unparseable (Date.parse gives NaN), or absent. -/

inductive TsField where
  | missing
  | emptyStr
  | bad
  | stamp (ms : ℤ)
deriving DecidableEq

/-! ### Bounded event logs (recordEventWithWindow) -/

def EVENT_WINDOW_MS : ℤ := 7 * 24 * 60 * 60 * 1000
def MAX_EVENT_LOG : Nat := 400

/-- An entry of a generic event log; the payload stands for the event's
    domain-specific fields. -/
structure LogEntry where
  ts : TsField
  payload : Nat
deriving DecidableEq

/-- JS arr.slice(-n): the last n elements — except that -0 is 0, so
    slice(-0) = slice(0) returns the whole array. -/
def jsSliceFromEnd {α : Type} (l : List α) (n : Nat) : List α :=
  if n = 0 then l else l.drop (l.length - n)

/-- recordEventWithWindow(file, event, windowMs, maxEntries): push the
    event stamped now, drop entries older than the window (or with an
    unparseable timestamp), keep the last maxEntries, persist and return. -/
def recordEventWithWindow (now windowMs : ℤ) (maxEntries : Nat)
    (events : List LogEntry) (payload : Nat) : List LogEntry :=
  let pushed := events ++ [⟨.stamp now, payload⟩]
  let cutoff := now - windowMs
  let filtered := pushed.filter fun e =>
    match e.ts with
    | .stamp t => decide (cutoff ≤ t)
    | _ => false
  jsSliceFromEnd filtered maxEntries

/-! ### Notifications (appendNotification) -/

def NOTIFICATION_LIMIT : Nat := 50
def NOTIFICATION_SUPPRESS_MS : ℤ := 6 * 60 * 60 * 1000

def PUSH_NOTIFICATION_TYPES : List String :=
  ["feeding_time", "feeding_complete", "water_low", "abnormal_barking",
   "air_quality_alert", "system_alert"]

/-- A stored notification entry; time is the parsed timestamp of the ISO
    string written at creation. -/
structure Notif where
  message : String
  typ : String
  time : Option ℤ
  pushType : Option String
  pushed : Bool
deriving DecidableEq

/-- pushType && PUSH_NOTIFICATION_TYPES.includes(pushType): a push type
    is eligible when truthy (nonempty) and in the allowlist. -/
def isPushEligible (pushType : Option String) : Bool :=
  match pushType with
  | some p => decide (p ≠ "") && PUSH_NOTIFICATION_TYPES.contains p
  | none => false

/-- The fresh entry unshifted by appendNotification. -/
def mkNotif (now : ℤ) (message typ : String) (pushType : Option String) : Notif :=
  { message := message
    typ := typ
    time := some now
    pushType := if isPushEligible pushType then pushType else none
    pushed := false }

/-- Prepend the fresh entry and cap the list (unshift + slice(0, 50)). -/
def insertNotif (now : ℤ) (message typ : String) (pushType : Option String)
    (l : List Notif) : List Notif :=
  (mkNotif now message typ pushType :: l).take NOTIFICATION_LIMIT

/-- appendNotification(message, type, pushType) at time now over the
    current list: empty messages record nothing; an existing entry with
    the same message younger than the suppression window suppresses the
    call; otherwise every entry with that message is removed and a fresh
    entry is prepended. -/
def appendNotification (now : ℤ) (message typ : String) (pushType : Option String)
    (l : List Notif) : List Notif :=
  if message = "" then l
  else
    match l.find? fun e => e.message == message with
    | some existing =>
        match existing.time with
        | some t =>
            if now - t < NOTIFICATION_SUPPRESS_MS then l
            else insertNotif now message typ pushType (l.filter fun e => e.message != message)
        | none => insertNotif now message typ pushType (l.filter fun e => e.message != message)
    | none => insertNotif now message typ pushType l

/-! ### Water level monitoring (monitorWaterLevel) -/

def WATER_DROP_THRESHOLD : ℚ := 5

/-- Number parsing for numeric strings (sanitizeNumber's string branch);
    integer literals only — no claim depends on fractional string input. -/
def parseNatChars (l : List Char) : Option ℕ :=
  l.foldl (fun acc c =>
    acc.bind fun n => if c.isDigit then some (n * 10 + (c.toNat - '0'.toNat)) else none)
    (some 0)

/-- JS Number(s) on a trimmed nonempty string (integer literals). -/
def jsParseNumber (s : String) : Option ℚ :=
  match s.data with
  | '-' :: rest => if rest.isEmpty then none else (parseNatChars rest).map fun n => -(n : ℚ)
  | l => if l.isEmpty then none else (parseNatChars l).map fun n => (n : ℚ)

/-- sanitizeNumber: a finite number is itself; a string with nonempty
    trim is parsed; everything else is undefined. -/
def sanitizeNumber : JVal → Option ℚ
  | .num q => some q
  | .str s => if jsTrim s = "" then none else jsParseNumber (jsTrim s)
  | _ => none

/-- JS s.toLowerCase() (ASCII). -/
def toLowerString (s : String) : String := ⟨s.data.map Char.toLower⟩

/-- normalizeWaterState: strings are matched against the low/high word
    lists after trim+lowercase, booleans map true↦high / false↦low,
    finite numbers use the ≤20 / ≥80 thresholds, anything else is null. -/
def normalizeWaterState : JVal → Option String
  | .str s =>
      let n := toLowerString (jsTrim s)
      if n = "" then none
      else if ["low", "empty", "refill", "0", "off"].contains n then some "low"
      else if ["high", "full", "ok", "normal", "1", "on"].contains n then some "high"
      else none
  | .boolv b => some (if b then "high" else "low")
  | .num q => if q ≤ 20 then some "low" else if 80 ≤ q then some "high" else none
  | _ => none

/-- The snapshot fields monitorWaterLevel reads. -/
structure WaterSnap where
  waterLevel : JVal
  waterLevelState : JVal

/-- The module-level cache (lastWaterLevelReading, lastWaterLevelState). -/
structure WaterCache where
  lastReading : Option ℚ
  lastState : Option String
deriving DecidableEq

/-- The side effects monitorWaterLevel can perform, in call order:
    recordWaterIntakeEvent({delta, levelAfter}), the water-low
    appendNotification call, and recordWaterIntakeEvent({state}). -/
inductive WaterEff where
  | intakeDelta (delta levelAfter : ℚ)
  | notifyLow
  | intakeState (state : String)
deriving DecidableEq

/-- The level-drop part of monitorWaterLevel: when both the current
    numeric level and the cached previous reading exist and the drop
    reaches the threshold, recordWaterIntakeEvent({delta, levelAfter})
    is called. -/
def waterDeltaEffs (snap : WaterSnap) (c : WaterCache) : List WaterEff :=
  match sanitizeNumber snap.waterLevel, c.lastReading with
  | some lvl, some lastR =>
      if WATER_DROP_THRESHOLD ≤ lastR - lvl then [WaterEff.intakeDelta (lastR - lvl) lvl] else []
  | _, _ => []

/-- monitorWaterLevel(snapshot): returns the updated cache and the list
    of effect calls made, in order.  Note the structure of the source:
    the appendNotification call is guarded only by state === "low",
    while the intake event is guarded by the low transition, and a null
    normalized state returns early without touching lastState. -/
def monitorWaterLevel (snap : WaterSnap) (c : WaterCache) : WaterCache × List WaterEff :=
  let lastReading1 := match sanitizeNumber snap.waterLevel with
    | some lvl => some lvl
    | none => c.lastReading
  match normalizeWaterState (jsCoalesce snap.waterLevelState snap.waterLevel) with
  | none => (⟨lastReading1, c.lastState⟩, waterDeltaEffs snap c)
  | some s =>
      let noteEffs := if s = "low" then [WaterEff.notifyLow] else []
      let stEffs :=
        if s = "low" ∧ c.lastState ≠ some "low" then [WaterEff.intakeState s] else []
      (⟨lastReading1, some s⟩, waterDeltaEffs snap c ++ noteEffs ++ stEffs)

/-! ### Water intake clustering and analysis (groupMinutesWithinTolerance,
    runWaterAnalysis) -/

def WATER_TOLERANCE_MINUTES : Nat := 15

/-- Greedy clustering, structurally recursive on a fuel bound (the list
    length, which the remaining ungrouped list never exceeds). -/
def groupMinutesAux : Nat → List Nat → List (List Nat)
  | _, [] => []
  | 0, _ => []
  | fuel + 1, base :: rest =>
      (base :: rest.filter fun c => decide (Nat.dist c base ≤ WATER_TOLERANCE_MINUTES)) ::
        groupMinutesAux fuel
          (rest.filter fun c => !decide (Nat.dist c base ≤ WATER_TOLERANCE_MINUTES))

/-- Greedy clustering: the first ungrouped minute seeds a bucket that
    absorbs every later ungrouped minute within the tolerance of the
    seed; then the next ungrouped minute seeds the next bucket. -/
def groupMinutesWithinTolerance (minutes : List Nat) : List (List Nat) :=
  groupMinutesAux minutes.length minutes

/-- grouped.sort((a, b) => b.length - a.length): a stable sort by
    descending length (Array.prototype.sort is stable). -/
def sortGroupsDesc (l : List (List Nat)) : List (List Nat) :=
  List.insertionSort (fun a b => b.length ≤ a.length) l

/-- Math.round(sum / length) for the bucket average (round half up). -/
def jsRoundAvg (l : List Nat) : Nat := (2 * l.sum + l.length) / (2 * l.length)

/-- String(n).padStart(2, "0"). -/
def pad2 (n : Nat) : String :=
  let s := toString n
  if s.length < 2 then "0" ++ s else s

/-- Format a minute-of-day as HH:MM. -/
def formatHHMM (m : Nat) : String := pad2 (m / 60) ++ ":" ++ pad2 (m % 60)

/-- The water section written to the analysis document (updatedAt and
    the constant toleranceMinutes field omitted). -/
structure WaterResult where
  totalEvents : Nat
  mostFrequentTime : Option String
  status : String
  warning : Option String
deriving DecidableEq

/-- runWaterAnalysis over the minute-of-day values of the water events,
    the timestamp field of the last event, and the current time; the
    Bool records whether the stale-intake appendNotification call was
    made. -/
def runWaterAnalysis (minutes : List Nat) (lastTs : TsField) (now : ℤ) :
    WaterResult × Bool :=
  if minutes.isEmpty then
    ({ totalEvents := 0, mostFrequentTime := none,
       status := "insufficient_data", warning := none }, false)
  else
    let grouped := sortGroupsDesc (groupMinutesWithinTolerance minutes)
    let mft :=
      match grouped with
      | [] => none
      | top :: _ => if top.isEmpty then none else some (formatHHMM (jsRoundAvg top))
    let stale :=
      match lastTs with
      | .missing => true
      | .emptyStr => true
      | .bad => false
      | .stamp t => decide (12 * 60 * 60 * 1000 < now - t)
    if stale then
      ({ totalEvents := minutes.length, mostFrequentTime := mft, status := "warning",
         warning := some "Water intake has not been detected in over 12 hours." }, true)
    else
      ({ totalEvents := minutes.length, mostFrequentTime := mft, status := "ok",
         warning := none }, false)

/-! ### Food trend analysis (runFoodAnalysis) -/

def FOOD_EXPECTED_FALLBACK : ℚ := 200

/-- A feeding-history entry. -/
structure FeedEntry where
  ts : TsField
  amount : JVal

/-- The calendar-day key of a millisecond timestamp
    (toISOString().slice(0, 10) modelled as the UTC day index). -/
def dayKey (t : ℤ) : ℤ := Int.fdiv t 86400000

/-- The amounts recorded on day d, in history order (entries with an
    unparseable timestamp or a non-numeric amount are skipped). -/
def amountsForDay (history : List FeedEntry) (d : ℤ) : List ℚ :=
  history.filterMap fun e =>
    match e.ts with
    | .stamp t => if dayKey t = d then sanitizeNumber e.amount else none
    | _ => none

/-- mean(arr): 0 for an empty list. -/
def meanQ (l : List ℚ) : ℚ := if l.isEmpty then 0 else l.sum / l.length

/-- Number(x.toFixed(2)). -/
def toFixed2 (q : ℚ) : ℚ := (round (q * 100) : ℚ) / 100

/-- Number(x.toFixed(1)). -/
def toFixed1 (q : ℚ) : ℚ := (round (q * 10) : ℚ) / 10

/-- The feeding document (schedule/config), fields as raw JS values. -/
structure FeedingPlan where
  meal1Time : JVal
  meal2Time : JVal
  meal3Time : JVal
  mealAmount : JVal

/-- The empty feeding plan (missing document / no configured fields). -/
def emptyPlan : FeedingPlan := ⟨.undefv, .undefv, .undefv, .undefv⟩

/-- The food section written to the analysis document (updatedAt omitted). -/
structure FoodResult where
  comparePastData : Option ℚ
  foodWarning : Bool
  todayAverage : ℚ
  yesterdayAverage : ℚ
  expectedFoodConsumption : ℚ
  todayTotal : ℚ
deriving DecidableEq

/-- runFoodAnalysis over the feeding history, feeding plan and current
    time; the Bool records whether the food-warning appendNotification
    call was made.  JS 0.6 is the exact decimal 3/5. -/
def runFoodAnalysis (history : List FeedEntry) (plan : FeedingPlan) (now : ℤ) :
    FoodResult × Bool :=
  let todayAmounts := amountsForDay history (dayKey now)
  let yAmounts := amountsForDay history (dayKey (now - 24 * 60 * 60 * 1000))
  let todayMean := meanQ todayAmounts
  let yesterdayMean := meanQ yAmounts
  let comparePastData :=
    if 0 < yesterdayMean then some (toFixed2 (todayMean / yesterdayMean - 1)) else none
  let plannedCount := ([plan.meal1Time, plan.meal2Time, plan.meal3Time].filter jsTruthy).length
  let plannedMeals : ℚ := if plannedCount = 0 then 2 else plannedCount
  let expectedPerMeal := (sanitizeNumber plan.mealAmount).getD FOOD_EXPECTED_FALLBACK
  let expectedFoodConsumption := plannedMeals * expectedPerMeal
  let todayTotal := toFixed1 todayAmounts.sum
  let foodWarning := decide (todayTotal < expectedFoodConsumption * (3 / 5))
  ({ comparePastData := comparePastData
     foodWarning := foodWarning
     todayAverage := toFixed1 todayMean
     yesterdayAverage := toFixed1 yesterdayMean
     expectedFoodConsumption := expectedFoodConsumption
     todayTotal := todayTotal }, foodWarning)

/-! ### Retention sweep (runAutoCleanup, array-based files) -/

def AUTO_CLEANUP_MAX_AGE_MS : ℤ := 31 * 24 * 60 * 60 * 1000

/-- An entry of an array-based log as the janitor sees it: its ts and
    time fields plus an opaque payload standing for everything else. -/
structure CleanEntry where
  ts : TsField
  time : TsField
  payload : String
deriving DecidableEq

/-- entry?.ts || entry?.time: ts when truthy (any nonempty string, even
    an unparseable one), otherwise time. -/
def tsOrTime (e : CleanEntry) : TsField :=
  match e.ts with
  | .stamp t => .stamp t
  | .bad => .bad
  | _ => e.time

/-- The janitor's keep predicate: keep entries with no (falsy) timestamp;
    drop entries whose timestamp parses below the cutoff or does not
    parse at all. -/
def keepEntry (cutoff : ℤ) (e : CleanEntry) : Bool :=
  match tsOrTime e with
  | .missing => true
  | .emptyStr => true
  | .bad => false
  | .stamp t => decide (cutoff ≤ t)

/-- One array-based file sweep of runAutoCleanup at time now. -/
def cleanupArrayFile (now : ℤ) (entries : List CleanEntry) : List CleanEntry :=
  entries.filter (keepEntry (now - AUTO_CLEANUP_MAX_AGE_MS))

/-! ### The /actions endpoint (app.post("/actions")) -/

def DISPENSED_AMOUNT : ℚ := 20
def FEEDING_HISTORY_WINDOW_MS : ℤ := 7 * 24 * 60 * 60 * 1000
def MAX_FEEDING_EVENTS : Nat := 400

/-- Property access v[k] (undefined on non-objects). -/
def jsGet (v : JVal) (k : String) : JVal :=
  match v with
  | .obj fs => (fs.lookup k).getD .undefv
  | _ => .undefv

/-- JS property assignment o[k] = v on an object's field list: an
    existing key is updated in place, a new key is appended. -/
def setField (fs : List (String × JVal)) (k : String) (v : JVal) : List (String × JVal) :=
  if (fs.lookup k).isSome then fs.map fun kv => if kv.1 = k then (k, v) else kv
  else fs ++ [(k, v)]

/-- Number(v) coercion for the values reachable here; NaN results (from
    unparseable strings or objects) are modelled as 0 and are unreachable
    in the properties proved. -/
def jsToNumber : JVal → ℚ
  | .num q => q
  | .boolv b => if b then 1 else 0
  | .str s => (jsParseNumber (jsTrim s)).getD 0
  | _ => 0

/-- new Date(t).toISOString() modelled by an injective rendering of the
    millisecond value. -/
def isoStr (t : ℤ) : String := toString t

/-- The switch(action) body: given the spread copy of the dashboard,
    returns the updated dashboard fields and the feeding amount to
    record, or HttpError(400, "Unsupported action") on the default
    branch — before any write happens. -/
def applyAction (action : String) (dash : List (String × JVal)) (now : ℤ) :
    Except HErr (List (String × JVal) × ℚ) :=
  if action = "toggle_light" then
    let current := jsTruthy (jsCoalesce (jsGet (.obj dash) "lightOn")
      (jsGet (jsGet (.obj dash) "deviceStatus") "lightOn"))
    let nd := setField dash "lightOn" (.boolv (!current))
    let devFields :=
      if jsTruthy (jsGet (.obj nd) "deviceStatus") then fieldsOf (jsGet (.obj nd) "deviceStatus")
      else []
    .ok (setField nd "deviceStatus" (.obj (spreadUnion devFields [("lightOn", .boolv (!current))])), 0)
  else if action = "dispense_food" then
    let prev := jsGet (.obj dash) "lastMeal"
    let lastMeal := jsToNumber (if jsTruthy prev then prev else .num 0) + DISPENSED_AMOUNT
    let nd := setField dash "lastMeal" (.num lastMeal)
    .ok (setField nd "lastMealTime" (.str (isoStr now)), DISPENSED_AMOUNT)
  else if action = "reset_food_amount" then
    let nd := setField dash "lastMeal" (.num 0)
    .ok (setField nd "lastMealTime" .nullv, 0)
  else if action = "refill_water" then
    .ok (setField dash "waterLevel" (.str "100%"), 0)
  else .error ⟨400, "Unsupported action"⟩

/-- The stored documents the /actions endpoint can touch.  A none
    document is an absent file (read as 404 and defaulted by the
    handler). -/
structure Store where
  dashboard : Option JVal
  feedingHistory : List FeedEntry
  feeding : FeedingPlan
  analysisFood : Option FoodResult
  notifications : List Notif
  actions : Option JVal

/-- recordFeedingEvent(amount): append to feeding-history under its
    window and cap, persist, then run the food analysis (which may also
    record a warning notification and writes the analysis section). -/
def recordFeedingEventS (now : ℤ) (amount : ℚ) (st : Store) : Store :=
  if decide (0 < amount) = false then st
  else
    let hist := jsSliceFromEnd
      ((st.feedingHistory ++ [(⟨.stamp now, .num amount⟩ : FeedEntry)]).filter fun e =>
        match e.ts with
        | .stamp t => decide (now - FEEDING_HISTORY_WINDOW_MS ≤ t)
        | _ => false)
      MAX_FEEDING_EVENTS
    let r := runFoodAnalysis hist st.feeding now
    { st with
      feedingHistory := hist
      analysisFood := some r.1
      notifications :=
        if r.2 then
          appendNotification now
            "Food intake is below the expected schedule. Please check the feeder."
            "warning" (some "system_alert") st.notifications
        else st.notifications }

/-- history.push on the actions document: none models the TypeError a
    non-array stored value raises (HTTP 500). -/
def pushActionEntry (v : JVal) (now : ℤ) (action : String) : Option JVal :=
  match v with
  | .arr xs => some (.arr (xs ++ [.obj [("ts", .str (isoStr now)), ("action", .str action)]]))
  | _ => none

/-- app.post("/actions") at time now: validate the action, read the
    dashboard (404 → {}), run the switch, and only then write the
    dashboard, possibly record the feeding event, and append to the
    actions audit log.  The returned store is the state of the documents
    when the response (or error) leaves the handler. -/
def postActions (now : ℤ) (action : String) (st : Store) : Except HErr JVal × Store :=
  if action = "" then (.error ⟨400, "Action is required"⟩, st)
  else
    let dash := fieldsOf (st.dashboard.getD (.obj []))
    match applyAction action dash now with
    | .error e => (.error e, st)
    | .ok (nd, feedAmt) =>
        let st1 : Store := { st with dashboard := some (pruneUndefined (.obj nd)) }
        let st2 := if 0 < feedAmt then recordFeedingEventS now feedAmt st1 else st1
        match pushActionEntry (st2.actions.getD (.arr [])) now action with
        | none => (.error ⟨500, "Internal server error"⟩, st2)
        | some acts => (.ok (.obj nd), { st2 with actions := some (pruneUndefined acts) })

/-- An empty store (no documents on disk yet). -/
def emptyStore : Store :=
  { dashboard := none, feedingHistory := [], feeding := emptyPlan,
    analysisFood := none, notifications := [], actions := none }

/-! ## Association-list lemmas for the merge semantics -/

theorem lookup_map_getD (a b : List (String × JVal)) (k : String) :
    List.lookup k (a.map fun kv => (kv.1, (List.lookup kv.1 b).getD kv.2))
      = (List.lookup k a).map fun v => (List.lookup k b).getD v := by
  induction a with
  | nil => rfl
  | cons hd tl ih =>
    obtain ⟨k', v'⟩ := hd
    simp only [List.map_cons, List.lookup_cons]
    cases h : k == k' with
    | false => simpa [h] using ih
    | true =>
      have hk : k = k' := beq_iff_eq.mp h
      subst hk
      simp

theorem lookup_filter_isNone (a b : List (String × JVal)) (k : String) :
    List.lookup k (b.filter fun kv => (List.lookup kv.1 a).isNone)
      = if (List.lookup k a).isNone then List.lookup k b else none := by
  induction b with
  | nil => simp
  | cons hd tl ih =>
    obtain ⟨k', v'⟩ := hd
    by_cases hcond : (List.lookup k' a).isNone = true
    · rw [List.filter_cons_of_pos (by simpa using hcond)]
      cases h : k == k' with
      | false => simp only [List.lookup_cons, h]; exact ih
      | true =>
        have hk : k = k' := beq_iff_eq.mp h
        subst hk
        simp [List.lookup_cons, hcond]
    · rw [List.filter_cons_of_neg (by simpa using hcond)]
      cases h : k == k' with
      | false => rw [ih]; simp only [List.lookup_cons, h]
      | true =>
        have hk : k = k' := beq_iff_eq.mp h
        subst hk
        rw [ih]
        have : (List.lookup k a).isNone = false := by simpa using hcond
        simp [this]

theorem lookup_spreadUnion (a b : List (String × JVal)) (k : String) :
    List.lookup k (spreadUnion a b)
      = match List.lookup k a with
        | some v => some ((List.lookup k b).getD v)
        | none => List.lookup k b := by
  unfold spreadUnion
  rw [List.lookup_append, lookup_map_getD, lookup_filter_isNone a b]
  cases h : List.lookup k a <;> simp [h]

theorem lookup_eq_none_of_not_mem_keys (l : List (String × JVal)) (k : String)
    (h : k ∉ l.map Prod.fst) : List.lookup k l = none := by
  induction l with
  | nil => rfl
  | cons hd tl ih =>
    simp only [List.map_cons, List.mem_cons, not_or] at h
    have hne : (k == hd.1) = false := by
      simpa using h.1
    obtain ⟨k', v'⟩ := hd
    simp only [List.lookup_cons, hne]
    exact ih h.2

theorem mem_keys_of_lookup_some (l : List (String × JVal)) (k : String) (v : JVal)
    (h : List.lookup k l = some v) : k ∈ l.map Prod.fst := by
  by_contra hmem
  rw [lookup_eq_none_of_not_mem_keys l k hmem] at h
  exact Option.noConfusion h

theorem lookup_some_mem (l : List (String × JVal)) (k : String) (v : JVal)
    (h : List.lookup k l = some v) : (k, v) ∈ l := by
  induction l with
  | nil => exact absurd h (by simp)
  | cons hd tl ih =>
    obtain ⟨k', v'⟩ := hd
    rw [List.lookup_cons] at h
    cases hk : k == k' with
    | true =>
      rw [hk] at h
      have := beq_iff_eq.mp hk
      subst this
      cases h
      exact List.mem_cons_self _ _
    | false =>
      rw [hk] at h
      exact List.mem_cons_of_mem _ (ih h)

theorem lookup_filter_undef (l : List (String × JVal)) (k : String)
    (hnd : (l.map Prod.fst).Nodup) :
    List.lookup k (l.filter fun kv => !kv.2.isUndefv)
      = (List.lookup k l).bind fun v => if v.isUndefv then none else some v := by
  induction l with
  | nil => simp
  | cons hd tl ih =>
    obtain ⟨k', v'⟩ := hd
    simp only [List.map_cons, List.nodup_cons] at hnd
    obtain ⟨hk', hnd'⟩ := hnd
    by_cases hu : v'.isUndefv = true
    · rw [List.filter_cons_of_neg (by simpa using hu)]
      cases h : k == k' with
      | false => rw [ih hnd']; simp only [List.lookup_cons, h]
      | true =>
        have hk : k = k' := beq_iff_eq.mp h
        subst hk
        rw [ih hnd', lookup_eq_none_of_not_mem_keys tl k hk']
        simp [List.lookup_cons, hu]
    · rw [List.filter_cons_of_pos (by simpa using hu)]
      cases h : k == k' with
      | false => simp only [List.lookup_cons, h]; exact ih hnd'
      | true =>
        have hk : k = k' := beq_iff_eq.mp h
        subst hk
        have hu' : v'.isUndefv = false := by simpa using hu
        simp [List.lookup_cons, hu']

theorem keys_filter_nodup (l : List (String × JVal)) (p : String × JVal → Bool)
    (h : (l.map Prod.fst).Nodup) : ((l.filter p).map Prod.fst).Nodup :=
  ((List.filter_sublist l).map Prod.fst).nodup h

theorem lookup_ne_none_of_mem_keys (l : List (String × JVal)) (k : String)
    (h : k ∈ l.map Prod.fst) : List.lookup k l ≠ none := by
  induction l with
  | nil => simp at h
  | cons hd tl ih =>
    obtain ⟨k', v'⟩ := hd
    simp only [List.map_cons, List.mem_cons] at h
    rcases h with h | h
    · subst h
      simp [List.lookup_cons]
    · rw [List.lookup_cons]
      cases hk : k == k' with
      | true => simp
      | false => exact ih h

theorem keys_spreadUnion_nodup (a b : List (String × JVal))
    (ha : (a.map Prod.fst).Nodup) (hb : (b.map Prod.fst).Nodup) :
    ((spreadUnion a b).map Prod.fst).Nodup := by
  unfold spreadUnion
  rw [List.map_append]
  have hmap : ((a.map fun kv => (kv.1, (List.lookup kv.1 b).getD kv.2)).map Prod.fst)
      = a.map Prod.fst := by
    rw [List.map_map]; rfl
  rw [List.nodup_append, hmap]
  refine ⟨ha, keys_filter_nodup b _ hb, ?_⟩
  intro x hx hx'
  simp only [List.mem_map] at hx'
  obtain ⟨kv, hkv, rfl⟩ := hx'
  rw [List.mem_filter] at hkv
  have hnone : List.lookup kv.1 a = none := by
    have := hkv.2
    simpa [Option.isNone_iff_eq_none] using this
  exact lookup_ne_none_of_mem_keys a kv.1 hx hnone

/-! ## Claim C2: merge semantics -/

/-- Claim C2 (corrected): mergeJsonFile treats NotFound and an empty file
    as the empty object; over an object current value it shallow-unions
    the partial with the partial's fields winning and its
    undefined-valued fields dropped (the current field surviving); a
    null or primitive (number, string, boolean) current value is
    replaced by the pruned partial outright; but an array current value
    is NOT replaced — its elements survive as index-keyed fields under
    the partial. -/
theorem mergeJsonFile_spec :
    (∀ m, mergeJsonFile .notFound m = mergeJsonFile (.json (.obj [])) m ∧
          mergeJsonFile .emptyFile m = mergeJsonFile (.json (.obj [])) m) ∧
    (∀ fs ms k, (fs.map Prod.fst).Nodup → (∀ kv ∈ fs, kv.2.isUndefv = false) →
        (ms.map Prod.fst).Nodup →
      getF (mergeJsonFile (.json (.obj fs)) (.obj ms)) k =
        ((List.lookup k ms).bind fun v => if v.isUndefv then none else some v).or
          (List.lookup k fs)) ∧
    (∀ m, mergeJsonFile (.json .nullv) m = pruneUndefined m) ∧
    (∀ q m, mergeJsonFile (.json (.num q)) m = pruneUndefined m) ∧
    (∀ s m, mergeJsonFile (.json (.str s)) m = pruneUndefined m) ∧
    (∀ b m, mergeJsonFile (.json (.boolv b)) m = pruneUndefined m) ∧
    mergeJsonFile (.json (.arr [.num 5, .num 6])) (.obj [("y", .num 7)]) =
      .obj [("0", .num 5), ("1", .num 6), ("y", .num 7)] := by
  refine ⟨fun m => ⟨rfl, rfl⟩, ?_, fun m => rfl, fun q m => rfl, fun s m => rfl,
    fun b m => rfl, rfl⟩
  intro fs ms k hfs hfsu hms
  have hstep : mergeJsonFile (.json (.obj fs)) (.obj ms)
      = pruneUndefined (.obj (spreadUnion fs (ms.filter fun kv => !kv.2.isUndefv))) := rfl
  rw [hstep]
  have hms' : ((ms.filter fun kv => !kv.2.isUndefv).map Prod.fst).Nodup :=
    keys_filter_nodup ms _ hms
  have hgetF : getF (pruneUndefined (.obj (spreadUnion fs (ms.filter fun kv => !kv.2.isUndefv)))) k
      = List.lookup k ((spreadUnion fs (ms.filter fun kv => !kv.2.isUndefv)).filter
          fun kv => !kv.2.isUndefv) := rfl
  rw [hgetF, lookup_filter_undef _ k (keys_spreadUnion_nodup fs _ hfs hms'),
    lookup_spreadUnion, lookup_filter_undef ms k hms]
  rcases hfk : List.lookup k fs with _ | v
  · rcases hmk : List.lookup k ms with _ | w
    · simp
    · by_cases hw : w.isUndefv = true
      · simp [hw]
      · have hw' : w.isUndefv = false := by simpa using hw
        simp [hw']
  · have hv : v.isUndefv = false := hfsu (k, v) (lookup_some_mem fs k v hfk)
    rcases hmk : List.lookup k ms with _ | w
    · simp [hv]
    · by_cases hw : w.isUndefv = true
      · simp [hw, hv]
      · have hw' : w.isUndefv = false := by simpa using hw
        simp [hw']

/-- Claim C2 witness: a concrete object merge where the partial's field
    wins over the current value. -/
theorem mergeJsonFile_spec_witness :
    getF (mergeJsonFile (.json (.obj [("a", .num 1)])) (.obj [("a", .num 2)])) "a" =
      ((List.lookup "a" [("a", JVal.num 2)]).bind fun v =>
        if v.isUndefv then none else some v).or (List.lookup "a" [("a", JVal.num 1)]) :=
  mergeJsonFile_spec.2.1 [("a", .num 1)] [("a", .num 2)] "a"
    (by simp) (by intro kv h; simp at h; rw [h]; rfl) (by simp)

/-- Claim C2 counterexample: the claim says an array current value is
    replaced by the partial outright; in fact merging {x: 1} over the
    stored array ["a"] writes {"0": "a", x: 1}, retaining the array
    element — not the partial {x: 1}. -/
theorem mergeJsonFile_cex :
    mergeJsonFile (.json (.arr [.str "a"])) (.obj [("x", .num 1)]) =
      .obj [("0", .str "a"), ("x", .num 1)] ∧
    pruneUndefined (.obj [("x", .num 1)]) = .obj [("x", .num 1)] ∧
    mergeJsonFile (.json (.arr [.str "a"])) (.obj [("x", .num 1)]) ≠
      .obj [("x", .num 1)] := by
  refine ⟨rfl, rfl, ?_⟩
  intro h
  have h1 : mergeJsonFile (.json (.arr [.str "a"])) (.obj [("x", .num 1)]) =
      .obj [("0", .str "a"), ("x", .num 1)] := rfl
  rw [h1] at h
  have h2 := congrArg (fun v => (fieldsOf v).length) h
  simp [fieldsOf] at h2

/-! ## Claim C1: per-key FIFO serialization -/

theorem applyTasks_cons {V : Type} (f : V → V) (ts : List (V → V)) (v : V) :
    applyTasks (f :: ts) v = applyTasks ts (f v) := rfl

/-- Running one scheduler step leaves, at every key, the value obtained
    by draining that key's remaining queue unchanged. -/
theorem pendingAt_runTask {K V : Type} [DecidableEq K] (s : QState K V) (k k' : K) :
    applyTasks ((runTask s k).queues k') ((runTask s k).store k')
      = applyTasks (s.queues k') (s.store k') := by
  unfold runTask
  cases hq : s.queues k with
  | nil => rfl
  | cons f rest =>
    by_cases hk : k' = k
    · subst hk
      simp only [Function.update_same, hq, applyTasks_cons]
    · simp only [Function.update_noteq hk]

theorem pendingAt_runSched {K V : Type} [DecidableEq K] (sched : List K)
    (s : QState K V) (k' : K) :
    applyTasks ((runSched s sched).queues k') ((runSched s sched).store k')
      = applyTasks (s.queues k') (s.store k') := by
  induction sched generalizing s with
  | nil => rfl
  | cons k rest ih =>
    have hstep : runSched s (k :: rest) = runSched (runTask s k) rest := rfl
    rw [hstep, ih, pendingAt_runTask]

/-- One merge-increment step: over an object document with unique keys
    the counter grows by one and the result is again such an object. -/
theorem incCounterTask_step (fs : List (String × JVal))
    (hnd : (fs.map Prod.fst).Nodup) :
    getCounter (incCounterTask (.obj fs)) = getCounter (.obj fs) + 1 ∧
    ∃ gs, incCounterTask (.obj fs) = .obj gs ∧ (gs.map Prod.fst).Nodup := by
  set q' : ℚ := getCounter (.obj fs) + 1 with hq'
  have hstep : incCounterTask (.obj fs)
      = .obj ((spreadUnion fs [("counter", .num q')]).filter fun kv => !kv.2.isUndefv) := rfl
  have hone : (([("counter", JVal.num q')]).map Prod.fst).Nodup := by simp
  have hnd' : ((spreadUnion fs [("counter", .num q')]).map Prod.fst).Nodup :=
    keys_spreadUnion_nodup fs _ hnd hone
  constructor
  · have hcnt : getCounter (incCounterTask (.obj fs))
        = match List.lookup "counter"
            ((spreadUnion fs [("counter", .num q')]).filter fun kv => !kv.2.isUndefv) with
          | some (.num q) => q
          | _ => 0 := by
      rw [hstep]; rfl
    rw [hcnt, lookup_filter_undef _ _ hnd', lookup_spreadUnion]
    have hb : List.lookup "counter" [("counter", JVal.num q')] = some (.num q') := by
      simp [List.lookup_cons]
    rw [hb]
    rcases List.lookup "counter" fs with _ | v <;> simp [JVal.isUndefv]
  · exact ⟨_, hstep, keys_filter_nodup _ _ hnd'⟩

theorem applyTasks_replicate_inc (n : ℕ) (fs : List (String × JVal))
    (hnd : (fs.map Prod.fst).Nodup) :
    getCounter (applyTasks (List.replicate n incCounterTask) (.obj fs))
      = getCounter (.obj fs) + n := by
  induction n generalizing fs with
  | zero => simp [applyTasks]
  | succ m ih =>
    rw [List.replicate_succ, applyTasks_cons]
    obtain ⟨hcnt, gs, hgs, hgnd⟩ := incCounterTask_step fs hnd
    rw [hgs] at hcnt ⊢
    rw [ih gs hgnd, hcnt]
    push_cast
    ring

/-- Claim C1: queueFileOp serializes the operations queued on one key in
    FIFO arrival order, so however the scheduler interleaves keys, once
    the queue of a key holding N atomic merge(name, {counter: counter+1})
    operations over an initially empty document has drained, the stored
    counter is exactly N — no update is lost. -/
theorem perKeyQueue_counter {K : Type} [DecidableEq K] (k : K) (N : ℕ)
    (s : QState K JVal) (sched : List K)
    (hq : s.queues k = List.replicate N incCounterTask)
    (hs : s.store k = .obj [])
    (hdone : (runSched s sched).queues k = []) :
    getCounter ((runSched s sched).store k) = N := by
  have hpend := pendingAt_runSched sched s k
  rw [hdone, hq, hs] at hpend
  have h0 : applyTasks ([] : List (JVal → JVal)) ((runSched s sched).store k)
      = (runSched s sched).store k := rfl
  rw [h0] at hpend
  rw [hpend, applyTasks_replicate_inc N [] (by simp)]
  have : getCounter (.obj []) = 0 := rfl
  rw [this, zero_add]

/-- Claim C1 witness: three merge-increments queued on one key, run to
    completion by a concrete schedule, leave counter = 3. -/
theorem perKeyQueue_counter_witness :
    getCounter ((runSched
      (⟨fun s => if s = "counter" then List.replicate 3 incCounterTask else [],
        fun _ => JVal.obj []⟩ : QState String JVal)
      ["counter", "counter", "counter"]).store "counter") = (3 : ℕ) :=
  perKeyQueue_counter "counter" 3 _ _ (by rfl) (by rfl) (by rfl)

/-! ## Claim C3: path safety of resolveFilePath -/

theorem validSegs_nil : validSegs [] := by
  intro s hs
  cases hs

theorem normStep_valid (acc : List String) (seg : String) (h : validSegs acc) :
    validSegs (normStep acc seg) := by
  unfold normStep
  split
  · exact h
  · split
    · intro s hs
      exact h s ((List.dropLast_sublist acc).mem hs)
    · rename_i h1 h2
      intro s hs
      rcases List.mem_append.mp hs with hs | hs
      · exact h s hs
      · have hseg : s = seg := by simpa using hs
        subst hseg
        simp only [Bool.or_eq_true, decide_eq_true_eq, not_or] at h1
        exact ⟨h1.1, h1.2, h2⟩

theorem foldl_normStep_valid (segs : List String) (acc : List String)
    (h : validSegs acc) : validSegs (segs.foldl normStep acc) := by
  induction segs generalizing acc with
  | nil => exact h
  | cons x xs ih => exact ih _ (normStep_valid acc x h)

theorem normSegs_valid (segs : List String) : validSegs (normSegs segs) :=
  foldl_normStep_valid segs [] validSegs_nil

theorem splitCommon_nil_fst (a : List String) :
    ∀ (b t : List String), splitCommon a b = ([], t) → b = a ++ t := by
  induction a with
  | nil =>
    intro b t h
    have hstep : splitCommon ([] : List String) b = ([], b) := rfl
    rw [hstep] at h
    cases h
    rfl
  | cons x xs ih =>
    intro b t h
    cases b with
    | nil =>
      have hstep : splitCommon (x :: xs) ([] : List String) = (x :: xs, []) := rfl
      rw [hstep] at h
      cases h
    | cons y ys =>
      have hstep : splitCommon (x :: xs) (y :: ys)
          = if x = y then splitCommon xs ys else (x :: xs, y :: ys) := rfl
      rw [hstep] at h
      by_cases hxy : x = y
      · rw [if_pos hxy] at h
        subst hxy
        rw [ih ys t h]
        rfl
      · rw [if_neg hxy] at h
        cases h

theorem joinSlash_dotdot (t : List String) :
    jsStartsWith (joinSlash (".." :: t)) ".." = true := by
  cases t with
  | nil => decide
  | cons x xs =>
    have hj : joinSlash (".." :: x :: xs) = ".." ++ "/" ++ joinSlash (x :: xs) := rfl
    rw [hj]
    unfold jsStartsWith
    rw [String.data_append, String.data_append]
    have h2 : (".." : String).data = ['.', '.'] := rfl
    have h3 : ("/" : String).data = ['/'] := rfl
    rw [h2, h3, List.isPrefixOf_iff_prefix, List.append_assoc]
    exact List.prefix_append _ _

theorem resolvePath_valid (db : List String) (nrm : String) :
    validSegs (resolvePath db nrm) := by
  unfold resolvePath
  split <;> exact normSegs_valid _

/-- Claim C3 (amended): a name that is empty or whitespace-only, an
    absolute path, or that contains ".." anywhere (as a substring, after
    backslash normalization — not only as a full path-traversal segment)
    is rejected with the HTTP 400 invalid-path error before any
    filesystem access; and every name the resolver accepts yields a
    canonical key (no empty, "." or ".." segments) lying inside the data
    directory.  In particular "../../etc/passwd", "/etc/passwd" and
    "a/../b" are all rejected. -/
theorem resolveFilePath_spec :
    (∀ db raw, (jsTrim raw = "" ∨ jsStartsWith (jsTrim raw) "/" = true ∨
        hasDotDot (backslashToSlash (jsTrim raw)) = true) →
      ∃ msg, resolveFilePath db raw = .error ⟨400, msg⟩) ∧
    (∀ db, resolveFilePath db "../../etc/passwd" = .error ⟨400, "Invalid file path"⟩) ∧
    (∀ db, resolveFilePath db "/etc/passwd" = .error ⟨400, "Invalid file path"⟩) ∧
    (∀ db, resolveFilePath db "a/../b" = .error ⟨400, "Invalid file path"⟩) ∧
    (∀ db raw p, validSegs db → resolveFilePath db raw = .ok p →
      (∃ t, p = db ++ t) ∧ validSegs p) := by
  refine ⟨?_, fun db => rfl, fun db => rfl, fun db => rfl, ?_⟩
  · intro db raw h
    by_cases h1 : jsTrim raw = ""
    · exact ⟨"File name is required", by simp [resolveFilePath, h1]⟩
    · by_cases h2 : jsStartsWith (jsTrim raw) "/" = true
      · exact ⟨"Invalid file path", by simp [resolveFilePath, h1, h2]⟩
      · have h3 : hasDotDot (backslashToSlash (jsTrim raw)) = true := by
          rcases h with h | h | h
          · exact absurd h h1
          · exact absurd h h2
          · exact h
        exact ⟨"Invalid file path", by simp [resolveFilePath, h1, h2, h3]⟩
  · intro db raw p hdb hok
    simp only [resolveFilePath] at hok
    set nrm := (if jsEndsWith (backslashToSlash (jsTrim raw)) ".json" then
      backslashToSlash (jsTrim raw)
    else backslashToSlash (jsTrim raw) ++ ".json") with hnrm
    split at hok
    · cases hok
    · split at hok
      · cases hok
      · split at hok
        · cases hok
        · split at hok
          · cases hok
          · rename_i hguard
            simp only [Except.ok.injEq] at hok
            subst hok
            refine ⟨?_, resolvePath_valid _ _⟩
            simp only [Bool.or_eq_true, not_or, Bool.not_eq_true] at hguard
            obtain ⟨hg1, -⟩ := hguard
            rcases hsc : splitCommon db (resolvePath db nrm) with ⟨f, t⟩
            have hrel : relativeOf db (resolvePath db nrm)
                = joinSlash (f.map (fun _ => "..") ++ t) := by
              unfold relativeOf
              rw [hsc]
            cases f with
            | nil => exact ⟨t, splitCommon_nil_fst db _ t hsc⟩
            | cons x xs =>
              exfalso
              rw [hrel] at hg1
              have hmap : ((x :: xs).map (fun _ => "..") ++ t)
                  = ".." :: (xs.map (fun _ => "..") ++ t) := by simp
              rw [hmap, joinSlash_dotdot] at hg1
              cases hg1

/-- Claim C3 witness: a whitespace-only name is rejected, and the
    accepted name "notes" resolves to the canonical key notes.json
    inside the data directory. -/
theorem resolveFilePath_spec_witness :
    (∃ msg, resolveFilePath pawsDb " " = .error ⟨400, msg⟩) ∧
    ((∃ t, (["home", "paws", "database", "notes.json"] : List String) = pawsDb ++ t) ∧
      validSegs ["home", "paws", "database", "notes.json"]) :=
  ⟨resolveFilePath_spec.1 pawsDb " " (Or.inl (by decide)),
   resolveFilePath_spec.2.2.2.2 pawsDb "notes" _ (by decide) (by rfl)⟩

/-- Claim C3 counterexample: "a..b" is not empty, not absolute and has
    no ".." path-traversal segment, yet resolveFilePath rejects it,
    because the code tests for ".." as a substring, not as a segment —
    so "for every other name, resolution yields a canonical key" fails. -/
theorem resolveFilePath_cex :
    jsTrim "a..b" ≠ "" ∧ jsStartsWith "a..b" "/" = false ∧
    hasTraversalSegment "a..b" = false ∧
    resolveFilePath pawsDb "a..b" = .error ⟨400, "Invalid file path"⟩ :=
  ⟨by decide, by decide, by decide, by rfl⟩

/-! ## Claim C4: event-log bounds -/

/-- Claim C4 (amended): for every positive maxCount, the array returned
    (and persisted) by an append holds at most maxCount entries, and
    every entry it holds carries a parseable timestamp no older than
    windowMs before the append time. -/
theorem recordEvent_bounds (now windowMs : ℤ) (maxEntries : Nat)
    (events : List LogEntry) (payload : Nat) (hmax : 1 ≤ maxEntries) :
    (recordEventWithWindow now windowMs maxEntries events payload).length ≤ maxEntries ∧
    ∀ e ∈ recordEventWithWindow now windowMs maxEntries events payload,
      ∃ t, e.ts = .stamp t ∧ now - windowMs ≤ t := by
  have hne : ¬ maxEntries = 0 := by omega
  simp only [recordEventWithWindow, jsSliceFromEnd]
  rw [if_neg hne]
  constructor
  · rw [List.length_drop]
    omega
  · intro e he
    have he' := List.Sublist.mem he (List.drop_sublist _ _)
    rw [List.mem_filter] at he'
    obtain ⟨-, hp⟩ := he'
    cases hts : e.ts with
    | stamp t =>
      rw [hts] at hp
      exact ⟨t, rfl, by simpa using hp⟩
    | missing => rw [hts] at hp; simp at hp
    | emptyStr => rw [hts] at hp; simp at hp
    | bad => rw [hts] at hp; simp at hp

/-- Claim C4 witness: a concrete append under maxCount = 5. -/
theorem recordEvent_bounds_witness :
    (recordEventWithWindow 0 1000 5 [] 7).length ≤ 5 ∧
    ∀ e ∈ recordEventWithWindow 0 1000 5 [] 7,
      ∃ t, e.ts = .stamp t ∧ (0 : ℤ) - 1000 ≤ t :=
  recordEvent_bounds 0 1000 5 [] 7 (by decide)

/-- Claim C4 counterexample: with maxCount = 0 the JS slice(-0) is
    slice(0), so the whole filtered array survives — one append to an
    empty log already exceeds the claimed bound of 0 entries. -/
theorem recordEvent_cex :
    (recordEventWithWindow 0 1000 0 [] 7).length = 1 ∧
    ¬ (recordEventWithWindow 0 1000 0 [] 7).length ≤ 0 := by
  constructor
  · decide
  · decide

/-! ## Claim C5: notification dedup and refresh -/

/-- Claim C5 (amended): for every NONEMPTY message X (an empty message
    is silently dropped by the guard at the top of appendNotification),
    starting from an empty list, a second notify of the same message
    within the 6-hour window records nothing (one live entry remains);
    a third notify after the window has elapsed removes the old instance
    and prepends a fresh entry, so exactly two entries were recorded
    over the three calls and the survivor carries the new timestamp. -/
theorem notificationDedup (X typ : String) (p : Option String) (t0 t1 t2 : ℤ)
    (hX : X ≠ "") (h01 : t1 - t0 < NOTIFICATION_SUPPRESS_MS)
    (h02 : NOTIFICATION_SUPPRESS_MS ≤ t2 - t0) :
    appendNotification t0 X typ p [] = [mkNotif t0 X typ p] ∧
    appendNotification t1 X typ p [mkNotif t0 X typ p] = [mkNotif t0 X typ p] ∧
    ([mkNotif t0 X typ p].filter fun e => e.message == X).length = 1 ∧
    appendNotification t2 X typ p [mkNotif t0 X typ p] = [mkNotif t2 X typ p] := by
  have hfind : (List.find? (fun e => e.message == X) [mkNotif t0 X typ p])
      = some (mkNotif t0 X typ p) := by
    simp [mkNotif]
  refine ⟨?_, ?_, ?_, ?_⟩
  · unfold appendNotification
    rw [if_neg hX]
    simp [insertNotif, NOTIFICATION_LIMIT]
  · unfold appendNotification
    rw [if_neg hX, hfind]
    simp only [mkNotif]
    rw [if_pos h01]
  · simp [mkNotif]
  · unfold appendNotification
    rw [if_neg hX, hfind]
    simp only [mkNotif]
    have hnot : ¬ (t2 - t0 < NOTIFICATION_SUPPRESS_MS) := by omega
    rw [if_neg hnot]
    simp [insertNotif, NOTIFICATION_LIMIT, mkNotif]

/-- Claim C5 witness: the scenario at concrete times 0, 1 and exactly
    the suppression window. -/
theorem notificationDedup_witness :
    appendNotification 0 "X" "warning" none [] = [mkNotif 0 "X" "warning" none] ∧
    appendNotification 1 "X" "warning" none [mkNotif 0 "X" "warning" none]
      = [mkNotif 0 "X" "warning" none] ∧
    ([mkNotif 0 "X" "warning" none].filter fun e => e.message == "X").length = 1 ∧
    appendNotification NOTIFICATION_SUPPRESS_MS "X" "warning" none
      [mkNotif 0 "X" "warning" none]
      = [mkNotif NOTIFICATION_SUPPRESS_MS "X" "warning" none] :=
  notificationDedup "X" "warning" none 0 1 NOTIFICATION_SUPPRESS_MS
    (by decide) (by decide) (by decide)

/-- Claim C5 counterexample: with the empty message, two notify calls
    within the window leave ZERO live entries with that message, not
    exactly one — appendNotification drops falsy messages outright. -/
theorem notificationDedup_cex :
    appendNotification 0 "" "warning" none [] = [] ∧
    appendNotification 1 "" "warning" none (appendNotification 0 "" "warning" none [])
      = [] := by
  constructor
  · rfl
  · rfl

/-! ## Claim C6: water-low notification edge behaviour -/

theorem notifyLow_not_mem_delta (snap : WaterSnap) (c : WaterCache) :
    WaterEff.notifyLow ∉ waterDeltaEffs snap c := by
  intro hmem
  unfold waterDeltaEffs at hmem
  cases hsn : sanitizeNumber snap.waterLevel with
  | none => rw [hsn] at hmem; simp at hmem
  | some lvl =>
    cases hlr : c.lastReading with
    | none => rw [hsn, hlr] at hmem; simp at hmem
    | some lastR =>
      rw [hsn, hlr] at hmem
      split at hmem <;> simp at hmem

theorem intakeState_not_mem_delta (snap : WaterSnap) (c : WaterCache) (s : String) :
    WaterEff.intakeState s ∉ waterDeltaEffs snap c := by
  intro hmem
  unfold waterDeltaEffs at hmem
  cases hsn : sanitizeNumber snap.waterLevel with
  | none => rw [hsn] at hmem; simp at hmem
  | some lvl =>
    cases hlr : c.lastReading with
    | none => rw [hsn, hlr] at hmem; simp at hmem
    | some lastR =>
      rw [hsn, hlr] at hmem
      split at hmem <;> simp at hmem

/-- Claim C6 (amended): the water-low appendNotification call is made on
    EVERY snapshot whose normalized water state is low (its deduplication
    is left to the notification suppression window), not only on
    transitions; the intake event with the state is recorded exactly on
    transitions into low, i.e. when the normalized state is low and the
    cached previous state was not low. -/
theorem monitorWater_amended (snap : WaterSnap) (c : WaterCache) :
    (WaterEff.notifyLow ∈ (monitorWaterLevel snap c).2 ↔
      normalizeWaterState (jsCoalesce snap.waterLevelState snap.waterLevel) = some "low") ∧
    (WaterEff.intakeState "low" ∈ (monitorWaterLevel snap c).2 ↔
      (normalizeWaterState (jsCoalesce snap.waterLevelState snap.waterLevel) = some "low" ∧
        c.lastState ≠ some "low")) := by
  unfold monitorWaterLevel
  cases hst : normalizeWaterState (jsCoalesce snap.waterLevelState snap.waterLevel) with
  | none =>
    refine ⟨⟨fun hmem => absurd hmem (notifyLow_not_mem_delta snap c), fun hf => by cases hf⟩,
      ⟨fun hmem => absurd hmem (intakeState_not_mem_delta snap c "low"),
       fun hf => by cases hf.1⟩⟩
  | some s =>
    by_cases hs : s = "low"
    · subst hs
      by_cases hl : c.lastState = some "low"
      · simp [hl, notifyLow_not_mem_delta snap c, intakeState_not_mem_delta snap c "low"]
      · simp [hl, notifyLow_not_mem_delta snap c, intakeState_not_mem_delta snap c "low"]
    · simp [hs, notifyLow_not_mem_delta snap c, intakeState_not_mem_delta snap c s,
        intakeState_not_mem_delta snap c "low"]

/-- Claim C6 counterexample: a snapshot whose normalized state is low
    while the cached previous state is already low still makes the
    water-low notification call — the claim says no call is made then. -/
theorem monitorWater_cex :
    normalizeWaterState (jsCoalesce JVal.undefv (JVal.num 10)) = some "low" ∧
    (monitorWaterLevel ⟨.num 10, .undefv⟩ ⟨none, some "low"⟩).2 = [WaterEff.notifyLow] := by
  constructor
  · decide
  · decide

/-! ## Claim C7: water intake clustering -/

/-- Claim C7 (amended): the greedy tolerance-15 clustering of minutes
    {590, 600, 605, 1200} groups {590, 600, 605} as the largest cluster
    and leaves 1200 alone; the reported mostFrequentTime is the rounded
    mean of the top cluster formatted HH:MM, which is "09:58" (the mean
    of 590, 600, 605 is 598.33, rounding to 598 = 09:58 — not 09:57);
    with zero events the status is insufficient_data, no warning is set
    and no notification call is made. -/
theorem waterClustering_amended :
    groupMinutesWithinTolerance [590, 600, 605, 1200] = [[590, 600, 605], [1200]] ∧
    (runWaterAnalysis [590, 600, 605, 1200] (.stamp 0) 0).1.mostFrequentTime
      = some "09:58" ∧
    (runWaterAnalysis [590, 600, 605, 1200] (.stamp 0) 0).1.status = "ok" ∧
    (∀ lastTs now, runWaterAnalysis [] lastTs now =
      ({ totalEvents := 0, mostFrequentTime := none, status := "insufficient_data",
         warning := none }, false)) :=
  ⟨by decide, by decide, by decide, fun lastTs now => rfl⟩

/-- Claim C7 counterexample: the engine reports "09:58" for minutes
    {590, 600, 605, 1200}, not the claimed "09:57". -/
theorem waterClustering_cex :
    (runWaterAnalysis [590, 600, 605, 1200] (.stamp 0) 0).1.mostFrequentTime
      = some "09:58" ∧
    (runWaterAnalysis [590, 600, 605, 1200] (.stamp 0) 0).1.mostFrequentTime
      ≠ some "09:57" := by
  constructor
  · decide
  · decide

/-! ## Claim C8: food trend analysis -/

/-- Claim C8 (amended): comparePastData is the ratio of today's mean
    feeding amount to yesterday's minus one ROUNDED TO TWO DECIMALS (the
    stored value is Number((ratio - 1).toFixed(2)), not the exact
    ratio), null when yesterday has no data; with 100g today and 200g
    yesterday it is -0.5 exactly; foodWarning is set exactly when
    today's (one-decimal) running total is below 60% of the expected
    daily consumption, which defaults to 2 meals x 200g = 400g, so a
    100g today total against the default gives foodWarning = true. -/
theorem foodTrend_spec :
    (∀ history plan now, amountsForDay history (dayKey (now - 24 * 60 * 60 * 1000)) = [] →
      (runFoodAnalysis history plan now).1.comparePastData = none) ∧
    (∀ history plan now,
      0 < meanQ (amountsForDay history (dayKey (now - 24 * 60 * 60 * 1000))) →
      (runFoodAnalysis history plan now).1.comparePastData =
        some (toFixed2 (meanQ (amountsForDay history (dayKey now)) /
          meanQ (amountsForDay history (dayKey (now - 24 * 60 * 60 * 1000))) - 1))) ∧
    (∀ history plan now,
      ((runFoodAnalysis history plan now).1.foodWarning = true ↔
        (runFoodAnalysis history plan now).1.todayTotal <
          (runFoodAnalysis history plan now).1.expectedFoodConsumption * (3 / 5))) ∧
    (∀ history now, (runFoodAnalysis history emptyPlan now).1.expectedFoodConsumption = 400) ∧
    (runFoodAnalysis
      [⟨.stamp (2 * 86400000 + 1000), .num 100⟩, ⟨.stamp (86400000 + 1000), .num 200⟩]
      emptyPlan (2 * 86400000 + 1000)).1.comparePastData = some (-(1 : ℚ) / 2) ∧
    (runFoodAnalysis
      [⟨.stamp (2 * 86400000 + 1000), .num 100⟩, ⟨.stamp (86400000 + 1000), .num 200⟩]
      emptyPlan (2 * 86400000 + 1000)).1.foodWarning = true := by
  have ht : amountsForDay
      [⟨.stamp (2 * 86400000 + 1000), .num 100⟩, ⟨.stamp (86400000 + 1000), .num 200⟩]
      (dayKey (2 * 86400000 + 1000)) = [(100 : ℚ)] := by decide
  have hy : amountsForDay
      [⟨.stamp (2 * 86400000 + 1000), .num 100⟩, ⟨.stamp (86400000 + 1000), .num 200⟩]
      (dayKey (2 * 86400000 + 1000 - 24 * 60 * 60 * 1000)) = [(200 : ℚ)] := by decide
  refine ⟨?_, ?_, ?_, ?_, ?_, ?_⟩
  · intro history plan now h
    simp only [runFoodAnalysis]
    rw [h]
    simp [meanQ]
  · intro history plan now h
    simp only [runFoodAnalysis]
    rw [if_pos h]
  · intro history plan now
    simp only [runFoodAnalysis]
    simp [decide_eq_true_eq]
  · intro history now
    simp [runFoodAnalysis, emptyPlan, jsTruthy, sanitizeNumber, FOOD_EXPECTED_FALLBACK]
    norm_num
  · simp only [runFoodAnalysis]
    rw [ht, hy]
    norm_num [meanQ, toFixed2, round_eq]
  · simp only [runFoodAnalysis]
    rw [ht]
    norm_num [emptyPlan, jsTruthy, sanitizeNumber, FOOD_EXPECTED_FALLBACK, meanQ,
      toFixed1, round_eq]

/-- Claim C8 witness: with no history at all, yesterday has no data and
    comparePastData is null. -/
theorem foodTrend_spec_witness :
    (runFoodAnalysis [] emptyPlan 0).1.comparePastData = none :=
  foodTrend_spec.1 [] emptyPlan 0 rfl

/-- Claim C8 counterexample: with 100g today and 300g yesterday the
    exact ratio minus one is -2/3, but the code stores the
    toFixed(2)-rounded -0.67 — comparePastData is not set to the exact
    "(today's mean / yesterday's mean) - 1". -/
theorem foodTrend_cex :
    (runFoodAnalysis
      [⟨.stamp (2 * 86400000 + 1000), .num 100⟩, ⟨.stamp (86400000 + 1000), .num 300⟩]
      emptyPlan (2 * 86400000 + 1000)).1.comparePastData = some (-(67 : ℚ) / 100) ∧
    (-(67 : ℚ) / 100) ≠ ((100 : ℚ) / 300 - 1) := by
  have ht : amountsForDay
      [⟨.stamp (2 * 86400000 + 1000), .num 100⟩, ⟨.stamp (86400000 + 1000), .num 300⟩]
      (dayKey (2 * 86400000 + 1000)) = [(100 : ℚ)] := by decide
  have hy : amountsForDay
      [⟨.stamp (2 * 86400000 + 1000), .num 100⟩, ⟨.stamp (86400000 + 1000), .num 300⟩]
      (dayKey (2 * 86400000 + 1000 - 24 * 60 * 60 * 1000)) = [(300 : ℚ)] := by decide
  constructor
  · simp only [runFoodAnalysis]
    rw [ht, hy]
    norm_num [meanQ, toFixed2, round_eq]
  · norm_num

/-! ## Claim C9: retention sweep -/

/-- Claim C9: the janitor's array sweep only ever removes entries (what
    it keeps is kept unchanged and in order), an entry survives the
    sweep of any log exactly when it was in the log and its keep
    predicate holds, and the keep predicate removes an entry dated
    32 days ago, retains an entry dated 1 day ago, and retains an entry
    lacking both timestamp fields. -/
theorem retentionSweep_spec :
    (∀ now l, (cleanupArrayFile now l).Sublist l) ∧
    (∀ (now : ℤ) (l : List CleanEntry) (e : CleanEntry),
      e ∈ cleanupArrayFile now l ↔
        e ∈ l ∧ keepEntry (now - AUTO_CLEANUP_MAX_AGE_MS) e = true) ∧
    (∀ (now : ℤ) (p : String),
      keepEntry (now - AUTO_CLEANUP_MAX_AGE_MS)
        ⟨.stamp (now - 32 * 86400000), .missing, p⟩ = false) ∧
    (∀ (now : ℤ) (q : String),
      keepEntry (now - AUTO_CLEANUP_MAX_AGE_MS)
        ⟨.stamp (now - 86400000), .missing, q⟩ = true) ∧
    (∀ (now : ℤ) (r : String),
      keepEntry (now - AUTO_CLEANUP_MAX_AGE_MS) ⟨.missing, .missing, r⟩ = true) ∧
    (∀ (now : ℤ) (p q r : String),
      cleanupArrayFile now
        [⟨.stamp (now - 32 * 86400000), .missing, p⟩,
         ⟨.stamp (now - 86400000), .missing, q⟩,
         ⟨.missing, .missing, r⟩] =
      [⟨.stamp (now - 86400000), .missing, q⟩, ⟨.missing, .missing, r⟩]) := by
  refine ⟨fun now l => List.filter_sublist l,
    fun now l e => List.mem_filter, ?_, ?_, ?_, ?_⟩
  · intro now p
    simp [keepEntry, tsOrTime, AUTO_CLEANUP_MAX_AGE_MS]
    omega
  · intro now q
    simp [keepEntry, tsOrTime, AUTO_CLEANUP_MAX_AGE_MS]
    omega
  · intro now r
    rfl
  · intro now p q r
    unfold cleanupArrayFile
    rw [List.filter_cons_of_neg
          (by simp [keepEntry, tsOrTime, AUTO_CLEANUP_MAX_AGE_MS]; omega),
        List.filter_cons_of_pos
          (by simp [keepEntry, tsOrTime, AUTO_CLEANUP_MAX_AGE_MS]; omega),
        List.filter_cons_of_pos (by rfl),
        List.filter_nil]

/-! ## Claim C10: unsupported actions -/

/-- Claim C10 (amended): a nonempty action name outside the supported
    set {toggle_light, dispense_food, reset_food_amount, refill_water}
    makes the /actions handler raise HttpError(400, "Unsupported
    action") from the switch default, before any write — the dashboard,
    feeding-history, actions (and every other) document is left exactly
    as it was.  (An EMPTY action name is also rejected with status 400
    and without any write, but by the earlier "Action is required"
    validation, not by the UnsupportedAction error.) -/
theorem actionsEndpoint_unsupported (now : ℤ) (action : String) (st : Store)
    (hne : action ≠ "")
    (hns : action ∉ (["toggle_light", "dispense_food", "reset_food_amount",
      "refill_water"] : List String)) :
    postActions now action st = (.error ⟨400, "Unsupported action"⟩, st) := by
  have h1 : action ≠ "toggle_light" := fun h => hns (by simp [h])
  have h2 : action ≠ "dispense_food" := fun h => hns (by simp [h])
  have h3 : action ≠ "reset_food_amount" := fun h => hns (by simp [h])
  have h4 : action ≠ "refill_water" := fun h => hns (by simp [h])
  simp only [postActions, applyAction]
  rw [if_neg hne, if_neg h1, if_neg h2, if_neg h3, if_neg h4]

/-- Claim C10 witness: the unsupported action "foo" against an empty
    store errors and modifies nothing. -/
theorem actionsEndpoint_unsupported_witness :
    postActions 0 "foo" emptyStore = (.error ⟨400, "Unsupported action"⟩, emptyStore) :=
  actionsEndpoint_unsupported 0 "foo" emptyStore (by decide) (by decide)

/-- Claim C10 counterexample: the empty action name is outside the
    supported set, and no document is modified, but the error raised is
    the 400 "Action is required" validation error, not the
    UnsupportedAction error the claim names. -/
theorem actionsEndpoint_cex :
    postActions 0 "" emptyStore = (.error ⟨400, "Action is required"⟩, emptyStore) ∧
    ("" ∉ (["toggle_light", "dispense_food", "reset_food_amount",
      "refill_water"] : List String)) ∧
    (⟨400, "Action is required"⟩ : HErr) ≠ ⟨400, "Unsupported action"⟩ := by
  refine ⟨rfl, by decide, by decide⟩

end Paws
